import Mathlib

/-!
Verification of the recurring-task scheduling core and the event-driven
handlers of the to-do application, as implemented in
`services/recurring-service/main.py`, `services/notification-service/main.py`,
`backend/routers/tasks.py` and `backend/services/event_publisher.py`.

The Python `datetime` values are embedded as a proleptic Gregorian calendar
date (year, month, day) together with a time of day, bounded as in CPython:
`MINYEAR = 1`, `MAXYEAR = 9999`. `timedelta(days = n)` addition is the
n-fold day successor and raises `OverflowError` (modelled as `none`) when
the result passes 9999-12-31; the `datetime` constructor rejects years
outside `1 … 9999`. `weekday()` (Monday = 0) is derived from the rata-die
day number of the date, which for day 1 (0001-01-01, a Monday) gives 0.
-/

namespace TodoSpec

/-- Python `calendar.isleap` / the leap-year rule used by `datetime`:
divisible by 4 and not by 100, or divisible by 400. -/
def isLeap (y : Nat) : Bool :=
  (y % 4 == 0 && y % 100 != 0) || y % 400 == 0

/-- Number of days in month `m` of year `y` (0 for an out-of-range month),
as enforced by the `datetime` constructor. -/
def daysInMonth (y : Nat) (m : Nat) : Nat :=
  match m with
  | 1 => 31
  | 2 => if isLeap y then 29 else 28
  | 3 => 31
  | 4 => 30
  | 5 => 31
  | 6 => 30
  | 7 => 31
  | 8 => 31
  | 9 => 30
  | 10 => 31
  | 11 => 30
  | 12 => 31
  | _ => 0

/-- A calendar date as stored by Python `datetime` (year, month, day). -/
structure Date where
  year : Nat
  month : Nat
  day : Nat
  deriving Repr, DecidableEq

/-- Calendar well-formedness with no upper bound on the year: `1 ≤ y`,
`1 ≤ m ≤ 12`, `1 ≤ d ≤ daysInMonth y m`. Used for the unbounded calendar
arithmetic below; the Python constructor additionally bounds the year. -/
def dateWF (y m d : Nat) : Bool :=
  1 ≤ y && 1 ≤ m && m ≤ 12 && 1 ≤ d && d ≤ daysInMonth y m

/-- The `datetime` constructor accepts `(y, m, d)` exactly when the date is
calendar-well-formed and `y ≤ 9999` (`datetime.MAXYEAR`); otherwise it
raises `ValueError`. -/
def dateValid (y m d : Nat) : Bool :=
  dateWF y m d && y ≤ 9999

/-- Calendar well-formedness of a `Date`. -/
def Date.WF (d : Date) : Prop :=
  dateWF d.year d.month d.day = true

/-- Constructor validity of a `Date` (well-formed and year ≤ 9999). -/
def Date.Valid (d : Date) : Prop :=
  dateValid d.year d.month d.day = true

instance (d : Date) : Decidable d.WF := by
  unfold Date.WF; infer_instance

instance (d : Date) : Decidable d.Valid := by
  unfold Date.Valid; infer_instance

theorem Date.Valid.wf {d : Date} (h : d.Valid) : d.WF := by
  simp only [Date.Valid, dateValid, Bool.and_eq_true] at h
  exact h.1

theorem Date.Valid.year_le {d : Date} (h : d.Valid) : d.year ≤ 9999 := by
  simp only [Date.Valid, dateValid, Bool.and_eq_true, decide_eq_true_eq] at h
  exact h.2

/-- The day after `d` on the unbounded proleptic Gregorian calendar (the
mathematical successor; the Python-facing, year-bounded shift is `addDays`
below). -/
def gregSucc (d : Date) : Date :=
  if d.day < daysInMonth d.year d.month then ⟨d.year, d.month, d.day + 1⟩
  else if d.month < 12 then ⟨d.year, d.month + 1, 1⟩
  else ⟨d.year + 1, 1, 1⟩

/-- n-fold day successor on the unbounded calendar. -/
def gregAddDays (d : Date) : Nat → Date
  | 0 => d
  | n + 1 => gregSucc (gregAddDays d n)

/-- Days of year `y` that precede month `m` (for `1 ≤ m ≤ 12`). -/
def daysBeforeMonth (y : Nat) (m : Nat) : Nat :=
  match m with
  | 1 => 0
  | 2 => 31
  | 3 => if isLeap y then 60 else 59
  | 4 => if isLeap y then 91 else 90
  | 5 => if isLeap y then 121 else 120
  | 6 => if isLeap y then 152 else 151
  | 7 => if isLeap y then 182 else 181
  | 8 => if isLeap y then 213 else 212
  | 9 => if isLeap y then 244 else 243
  | 10 => if isLeap y then 274 else 273
  | 11 => if isLeap y then 305 else 304
  | 12 => if isLeap y then 335 else 334
  | _ => 0

/-- Rata-die day number of a date: `Date.mk 1 1 1` is day 1; this is
Python's `date.toordinal`. -/
def rataDie (d : Date) : Int :=
  365 * ((d.year : Int) - 1)
    + ((d.year - 1) / 4 : Nat) - ((d.year - 1) / 100 : Nat) + ((d.year - 1) / 400 : Nat)
    + daysBeforeMonth d.year d.month + d.day

/-- Python `datetime.weekday()`: Monday = 0 … Sunday = 6. -/
def pythonWeekday (d : Date) : Nat :=
  ((rataDie d - 1) % 7).toNat

/-- The weekday in the 0 = Sunday convention used by the weekly recurrence
rule: `(weekday() + 1) % 7` as in the source. -/
def sundayWeekday (d : Date) : Nat :=
  (pythonWeekday d + 1) % 7

/-- Every in-range month has at least 28 days. -/
theorem daysInMonth_pos (y m : Nat) (h1 : 1 ≤ m) (h2 : m ≤ 12) :
    28 ≤ daysInMonth y m := by
  interval_cases m <;> simp only [daysInMonth] <;> (try split) <;> omega

/-- The day successor of a well-formed date is well-formed. -/
theorem gregSucc_wf (d : Date) (h : d.WF) : (gregSucc d).WF := by
  simp only [Date.WF, dateWF, Bool.and_eq_true, decide_eq_true_eq] at h ⊢
  obtain ⟨⟨⟨⟨hy, hm1⟩, hm2⟩, hd1⟩, hd2⟩ := h
  unfold gregSucc
  split
  · simp only [Bool.and_eq_true, decide_eq_true_eq]
    omega
  · split <;> simp only [Bool.and_eq_true, decide_eq_true_eq]
    · refine ⟨⟨⟨⟨hy, by omega⟩, by omega⟩, by omega⟩, ?_⟩
      have := daysInMonth_pos d.year (d.month + 1) (by omega) (by omega)
      omega
    · refine ⟨⟨⟨⟨by omega, by omega⟩, by omega⟩, by omega⟩, ?_⟩
      have := daysInMonth_pos (d.year + 1) 1 (by omega) (by omega)
      omega

/-- Adding days preserves well-formedness. -/
theorem gregAddDays_wf (d : Date) (n : Nat) (h : d.WF) : (gregAddDays d n).WF := by
  induction n with
  | zero => exact h
  | succ n ih => exact gregSucc_wf _ ih

theorem isLeap_iff (y : Nat) :
    isLeap y = true ↔ (y % 4 = 0 ∧ y % 100 ≠ 0) ∨ y % 400 = 0 := by
  simp [isLeap, Bool.or_eq_true, Bool.and_eq_true]

/-- `daysBeforeMonth` accumulates `daysInMonth`. -/
theorem daysBeforeMonth_succ (y m : Nat) (h1 : 1 ≤ m) (h2 : m ≤ 11) :
    daysBeforeMonth y (m + 1) = daysBeforeMonth y m + daysInMonth y m := by
  interval_cases m <;> simp [daysBeforeMonth, daysInMonth] <;> split <;> omega

/-- On well-formed dates the rata-die number of the day successor is one
more. -/
theorem rataDie_gregSucc (d : Date) (h : d.WF) :
    rataDie (gregSucc d) = rataDie d + 1 := by
  simp only [Date.WF, dateWF, Bool.and_eq_true, decide_eq_true_eq] at h
  obtain ⟨⟨⟨⟨hy, hm1⟩, hm2⟩, hd1⟩, hd2⟩ := h
  unfold gregSucc
  split
  · simp only [rataDie]
    push_cast
    ring
  · rename_i hlast
    split
    · rename_i hm12
      have hd : d.day = daysInMonth d.year d.month := by omega
      have hb := daysBeforeMonth_succ d.year d.month hm1 (by omega)
      simp only [rataDie] at *
      push_cast at *
      omega
    · rename_i hm12
      have hm : d.month = 12 := by omega
      have hdim : daysInMonth d.year d.month = 31 := by rw [hm]; rfl
      have hd : d.day = 31 := by omega
      have hleap := isLeap_iff d.year
      by_cases hl : isLeap d.year = true
      · replace hleap : (d.year % 4 = 0 ∧ d.year % 100 ≠ 0) ∨ d.year % 400 = 0 :=
          hleap.mp hl
        simp [rataDie, hm, hd, daysBeforeMonth, hl]
        omega
      · rw [Bool.not_eq_true] at hl
        replace hleap : ¬((d.year % 4 = 0 ∧ d.year % 100 ≠ 0) ∨ d.year % 400 = 0) := by
          intro hc
          exact absurd (hleap.mpr hc) (by simp [hl])
        simp [rataDie, hm, hd, daysBeforeMonth, hl]
        omega

/-- Rata die of `gregAddDays`. -/
theorem rataDie_gregAddDays (d : Date) (n : Nat) (h : d.WF) :
    rataDie (gregAddDays d n) = rataDie d + n := by
  induction n with
  | zero => simp [gregAddDays]
  | succ n ih =>
    have hv := gregAddDays_wf d n h
    simp only [gregAddDays]
    rw [rataDie_gregSucc _ hv, ih]
    push_cast
    ring

/-- Weekday shift under day addition. -/
theorem pythonWeekday_gregAddDays (d : Date) (n : Nat) (h : d.WF) :
    pythonWeekday (gregAddDays d n) = (pythonWeekday d + n) % 7 := by
  unfold pythonWeekday
  rw [rataDie_gregAddDays d n h]
  omega

theorem gregAddDays_add (d : Date) (a b : Nat) :
    gregAddDays (gregAddDays d a) b = gregAddDays d (a + b) := by
  induction b with
  | zero => rfl
  | succ b ih =>
    have e : a + (b + 1) = a + b + 1 := by omega
    rw [e]
    simp only [gregAddDays, ih]

/-- The day successor never decreases the year. -/
theorem gregSucc_year_le (d : Date) : d.year ≤ (gregSucc d).year := by
  unfold gregSucc
  split
  · exact Nat.le_refl _
  · split
    · exact Nat.le_refl _
    · exact Nat.le_succ _

theorem gregAddDays_year_le (d : Date) (n : Nat) :
    d.year ≤ (gregAddDays d n).year := by
  induction n with
  | zero => exact Nat.le_refl _
  | succ n ih => exact Nat.le_trans ih (gregSucc_year_le _)

theorem gregAddDays_year_mono (d : Date) (a b : Nat) (h : a ≤ b) :
    (gregAddDays d a).year ≤ (gregAddDays d b).year := by
  have e : b = a + (b - a) := by omega
  rw [e, ← gregAddDays_add]
  exact gregAddDays_year_le _ _

/-- A Python `datetime`: a date plus a time of day (microseconds omitted;
none of the verified code paths reads or writes them). -/
structure DateTime where
  date : Date
  hour : Nat
  minute : Nat
  second : Nat
  deriving Repr, DecidableEq

/-- Validity of a `DateTime` as enforced by the `datetime` constructor. -/
def DateTime.Valid (t : DateTime) : Prop :=
  t.date.Valid ∧ t.hour < 24 ∧ t.minute < 60 ∧ t.second < 60

instance (t : DateTime) : Decidable t.Valid := by
  unfold DateTime.Valid; infer_instance

/-- `d + timedelta(days = n)` on dates: the n-fold successor when it stays
within `datetime`'s range, `none` for the `OverflowError` raised when the
result would pass 9999-12-31. -/
def addDays (d : Date) (n : Nat) : Option Date :=
  if (gregAddDays d n).year ≤ 9999 then some (gregAddDays d n) else none

/-- `dt + timedelta(days = n)`: shifts the date (`OverflowError` as
`none`), keeps the time of day. -/
def addDaysDT (t : DateTime) (n : Nat) : Option DateTime :=
  match addDays t.date n with
  | some d => some ⟨d, t.hour, t.minute, t.second⟩
  | none => none

/-- Timeline view of a `datetime`: seconds since the epoch rata die 0.
Differences and shifts of `datetime`s (Python `timedelta` arithmetic)
are exactly integer arithmetic on this value. -/
def toSeconds (t : DateTime) : Int :=
  86400 * rataDie t.date + 3600 * t.hour + 60 * t.minute + t.second

theorem addDaysDT_eq_some_iff (t : DateTime) (n : Nat) (u : DateTime) :
    addDaysDT t n = some u ↔
      (gregAddDays t.date n).year ≤ 9999 ∧
        u = ⟨gregAddDays t.date n, t.hour, t.minute, t.second⟩ := by
  unfold addDaysDT addDays
  split_ifs with h
  · simp [h, eq_comm]
  · simp [h]

theorem addDaysDT_isSome_iff (t : DateTime) (n : Nat) :
    (addDaysDT t n).isSome = true ↔ (gregAddDays t.date n).year ≤ 9999 := by
  unfold addDaysDT addDays
  split_ifs with h <;> simp [h]

theorem gregAddDays_zero (d : Date) : gregAddDays d 0 = d := rfl

theorem DateTime_mk_date (dt : Date) (hh mm ss : Nat) :
    (⟨dt, hh, mm, ss⟩ : DateTime).date = dt := rfl

theorem DateTime_mk_hour (dt : Date) (hh mm ss : Nat) :
    (⟨dt, hh, mm, ss⟩ : DateTime).hour = hh := rfl

theorem DateTime_mk_minute (dt : Date) (hh mm ss : Nat) :
    (⟨dt, hh, mm, ss⟩ : DateTime).minute = mm := rfl

theorem DateTime_mk_second (dt : Date) (hh mm ss : Nat) :
    (⟨dt, hh, mm, ss⟩ : DateTime).second = ss := rfl

/-- A successful shift of a valid `datetime` stays valid. -/
theorem addDaysDT_valid (t u : DateTime) (n : Nat) (hv : t.Valid)
    (h : addDaysDT t n = some u) : u.Valid := by
  obtain ⟨hb, hu⟩ := (addDaysDT_eq_some_iff t n u).mp h
  subst hu
  refine ⟨?_, hv.2.1, hv.2.2.1, hv.2.2.2⟩
  have hwf := gregAddDays_wf t.date n hv.1.wf
  simp only [Date.Valid, dateValid, Bool.and_eq_true, decide_eq_true_eq]
  exact ⟨hwf, hb⟩

/-- A successful n-day shift of a well-formed `datetime` adds `86400 * n`
seconds on the timeline. -/
theorem toSeconds_addDaysDT (t u : DateTime) (n : Nat) (hwf : t.date.WF)
    (h : addDaysDT t n = some u) : toSeconds u = toSeconds t + 86400 * n := by
  obtain ⟨-, hu⟩ := (addDaysDT_eq_some_iff t n u).mp h
  subst hu
  simp only [toSeconds, rataDie_gregAddDays t.date n hwf]
  ring

/-- Python truthiness on an optional integer field:
`x if x else dflt` — `None` and `0` are both falsy. -/
def pick (o : Option Nat) (dflt : Nat) : Nat :=
  match o with
  | some v => if v = 0 then dflt else v
  | none => dflt

/-- One pass structure for the month-overflow loop of the monthly branch
(`while month > 12: month -= 12; year += 1`); `fuel` bounds the iteration
count (the loop runs at most `m / 12` times, so `fuel = m` suffices). -/
def monthCarryAux : Nat → Nat → Nat → Nat × Nat
  | 0, m, y => (m, y)
  | fuel + 1, m, y => if m > 12 then monthCarryAux fuel (m - 12) (y + 1) else (m, y)

/-- The month-overflow loop of the monthly branch:
`while month > 12: month -= 12; year += 1`. -/
def monthCarry (m y : Nat) : Nat × Nat :=
  monthCarryAux m m y

/-- The day-clamping loop of the monthly branch: starting from `day`, try
`datetime(year, month, day, …)`; on `ValueError` (non-existent day, or a
year outside `1 … 9999`) decrement `day`; when the decremented day falls
below 1 the loop `break`s (modelled as `none`), which in the source falls
through to the final 1-day fallback. -/
def clampLoop (y m : Nat) : Nat → Option Nat
  | 0 => if dateValid y m 0 then some 0 else none
  | day + 1 =>
    if dateValid y m (day + 1) then some (day + 1)
    else if day < 1 then none
    else clampLoop y m day

/-! ### A model of `json.loads`

`days_of_week` is stored as an arbitrary string, so the weekly branch runs
`json.loads` on whatever is there. The reader below follows the JSON
grammar as `json.loads` accepts it (RFC 8259 values plus CPython's default
`NaN` / `Infinity` / `-Infinity` extension; whitespace is space, tab,
newline, carriage return; integers have no leading zeros). Numbers with a
fraction or exponent are kept as exact rationals — IEEE-754 rounding of
float literals is not modelled, so the theorems that involve a parsed list
restrict it to integer elements, where the two agree. String contents are
validated (escapes, no raw control characters) but kept undecoded; no
verified property depends on them. -/

/-- A JSON value as produced by `json.loads`. -/
inductive JsonValue where
  | jnull
  | jbool (b : Bool)
  | jint (n : Int)
  | jnum (q : Rat)
  | jnan
  | jinf (negative : Bool)
  | jstr (s : String)
  | arr (items : List JsonValue)
  | jobj (members : List (String × JsonValue))

/-- JSON whitespace: space, tab, line feed, carriage return. -/
def skipWs : List Char → List Char
  | c :: cs => if c = ' ' ∨ c = '\t' ∨ c = '\n' ∨ c = '\r' then skipWs cs else c :: cs
  | [] => []

def isHexChar (c : Char) : Bool :=
  c.isDigit || ('a' ≤ c && c ≤ 'f') || ('A' ≤ c && c ≤ 'F')

/-- Scans a JSON string body after the opening quote: validates escapes and
rejects raw control characters; returns the (undecoded) content and the
rest after the closing quote. -/
def scanStringRest : List Char → Option (List Char × List Char)
  | [] => none
  | '"' :: rest => some ([], rest)
  | '\\' :: c :: rest =>
    if c = '"' ∨ c = '\\' ∨ c = '/' ∨ c = 'b' ∨ c = 'f' ∨ c = 'n' ∨ c = 'r' ∨ c = 't' then
      (scanStringRest rest).map (fun p => (c :: p.1, p.2))
    else if c = 'u' then
      match rest with
      | h1 :: h2 :: h3 :: h4 :: rest2 =>
        if isHexChar h1 && isHexChar h2 && isHexChar h3 && isHexChar h4 then
          (scanStringRest rest2).map (fun p => (p.1, p.2))
        else none
      | _ => none
    else none
  | '\\' :: [] => none
  | c :: rest =>
    if c.toNat < 32 then none
    else (scanStringRest rest).map (fun p => (c :: p.1, p.2))

/-- Reads a run of decimal digits, returning value, digit count and rest. -/
def digitsCountAux : List Char → Nat → Nat → Nat × Nat × List Char
  | c :: cs, acc, cnt =>
    if c.isDigit then digitsCountAux cs (acc * 10 + (c.toNat - 48)) (cnt + 1)
    else (acc, cnt, c :: cs)
  | [], acc, cnt => (acc, cnt, [])

/-- The integer part of a JSON number: `0`, or a nonzero digit followed by
digits (no leading zeros). -/
def readIntPart : List Char → Option (Nat × List Char)
  | '0' :: r => some (0, r)
  | c :: r =>
    if c.isDigit then
      let t := digitsCountAux (c :: r) 0 0
      some (t.1, t.2.2)
    else none
  | [] => none

/-- The optional fraction part: `.` followed by one or more digits,
returning (value, digit count). -/
def readFrac : List Char → Option (Option (Nat × Nat) × List Char)
  | '.' :: r =>
    let t := digitsCountAux r 0 0
    if t.2.1 = 0 then none else some (some (t.1, t.2.1), t.2.2)
  | cs => some (none, cs)

/-- The digits of an exponent after `e`/`E`, with optional sign. -/
def readExpTail (r : List Char) : Option (Option (Bool × Nat) × List Char) :=
  let signed : Bool × List Char :=
    match r with
    | '+' :: rr => (false, rr)
    | '-' :: rr => (true, rr)
    | _ => (false, r)
  let t := digitsCountAux signed.2 0 0
  if t.2.1 = 0 then none else some (some (signed.1, t.1), t.2.2)

/-- The optional exponent part of a JSON number. -/
def readExp : List Char → Option (Option (Bool × Nat) × List Char)
  | 'e' :: r => readExpTail r
  | 'E' :: r => readExpTail r
  | cs => some (none, cs)

/-- Assembles a parsed number: an `int` when there is no fraction and no
exponent (as `json.loads` does), else the exact decimal value. -/
def mkNum (neg : Bool) (ip : Nat) (fopt : Option (Nat × Nat))
    (eopt : Option (Bool × Nat)) : JsonValue :=
  match fopt, eopt with
  | none, none => .jint (if neg then -(ip : Int) else (ip : Int))
  | _, _ =>
    let base : Rat := (ip : Rat) +
      (match fopt with
       | some fp => (fp.1 : Rat) / (10 : Rat) ^ fp.2
       | none => 0)
    let scaled : Rat :=
      match eopt with
      | some ep => if ep.1 then base / (10 : Rat) ^ ep.2 else base * (10 : Rat) ^ ep.2
      | none => base
    .jnum (if neg then -scaled else scaled)

/-- Reads one JSON number token. -/
def readNumber (cs : List Char) : Option (JsonValue × List Char) :=
  let signed : Bool × List Char :=
    match cs with
    | '-' :: r => (true, r)
    | _ => (false, cs)
  match readIntPart signed.2 with
  | none => none
  | some (ip, r1) =>
    match readFrac r1 with
    | none => none
    | some (fopt, r2) =>
      match readExp r2 with
      | none => none
      | some (eopt, r3) => some (mkNum signed.1 ip fopt eopt, r3)

/-- Expects the given literal characters. -/
def expectChars : List Char → List Char → Option (List Char)
  | [], cs => some cs
  | e :: es, c :: cs => if c = e then expectChars es cs else none
  | _ :: _, [] => none

/-- The items of a non-empty JSON array, up to and including the closing
bracket; `pv` reads one value. -/
def parseListTail (pv : List Char → Option (JsonValue × List Char)) :
    Nat → List Char → Option (List JsonValue × List Char)
  | 0, _ => none
  | fuel + 1, cs =>
    match pv cs with
    | none => none
    | some (v, rest) =>
      match skipWs rest with
      | ']' :: r2 => some ([v], r2)
      | ',' :: r2 =>
        match parseListTail pv fuel r2 with
        | some (vs, r3) => some (v :: vs, r3)
        | none => none
      | _ => none

/-- The members of a non-empty JSON object, up to and including the closing
brace. -/
def parseObjTail (pv : List Char → Option (JsonValue × List Char)) :
    Nat → List Char → Option (List (String × JsonValue) × List Char)
  | 0, _ => none
  | fuel + 1, cs =>
    match skipWs cs with
    | '"' :: rest =>
      match scanStringRest rest with
      | none => none
      | some (key, r1) =>
        match skipWs r1 with
        | ':' :: r2 =>
          match pv r2 with
          | none => none
          | some (v, r3) =>
            match skipWs r3 with
            | '\x7d' :: r4 => some ([(String.mk key, v)], r4)
            | ',' :: r4 =>
              match parseObjTail pv fuel r4 with
              | some (ms, r5) => some ((String.mk key, v) :: ms, r5)
              | none => none
            | _ => none
        | _ => none
    | _ => none

/-- Reads one JSON value (with leading whitespace); `fuel` bounds the
nesting depth, one unit per enclosing bracket. -/
def parseVal : Nat → List Char → Option (JsonValue × List Char)
  | 0, _ => none
  | fuel + 1, cs =>
    match skipWs cs with
    | '[' :: rest =>
      match skipWs rest with
      | ']' :: r2 => some (.arr [], r2)
      | cs2 =>
        match parseListTail (parseVal fuel) (fuel + 1) cs2 with
        | some (vs, r) => some (.arr vs, r)
        | none => none
    | '\x7b' :: rest =>
      match skipWs rest with
      | '\x7d' :: r2 => some (.jobj [], r2)
      | cs2 =>
        match parseObjTail (parseVal fuel) (fuel + 1) cs2 with
        | some (ms, r) => some (.jobj ms, r)
        | none => none
    | '"' :: rest =>
      match scanStringRest rest with
      | some (content, r) => some (.jstr (String.mk content), r)
      | none => none
    | 't' :: rest => (expectChars ['r', 'u', 'e'] rest).map (fun r => (.jbool true, r))
    | 'f' :: rest => (expectChars ['a', 'l', 's', 'e'] rest).map (fun r => (.jbool false, r))
    | 'n' :: rest => (expectChars ['u', 'l', 'l'] rest).map (fun r => (.jnull, r))
    | 'N' :: rest => (expectChars ['a', 'N'] rest).map (fun r => (.jnan, r))
    | 'I' :: rest =>
      (expectChars ['n', 'f', 'i', 'n', 'i', 't', 'y'] rest).map (fun r => (.jinf false, r))
    | '-' :: 'I' :: rest =>
      (expectChars ['n', 'f', 'i', 'n', 'i', 't', 'y'] rest).map (fun r => (.jinf true, r))
    | cs2 => readNumber cs2

/-- `json.loads`: one JSON value with nothing but whitespace around it;
`none` models the `JSONDecodeError` raised on anything else. -/
def jsonLoads (s : String) : Option JsonValue :=
  match parseVal (s.data.length + 1) s.data with
  | some (v, rest) => if skipWs rest = [] then some v else none
  | none => none

/-- Python `check_weekday in target_days` equality against one element:
`int == int` and `int == float` compare exact values, and `bool` compares
as 0/1 (`True == 1` in Python); every other type compares unequal. -/
def pyEqNat (w : Nat) (v : JsonValue) : Bool :=
  match v with
  | .jint n => n == (w : Int)
  | .jnum q => q == (w : Rat)
  | .jbool b => (if b then 1 else 0) == w
  | _ => false

/-- Python `check_weekday in target_days` on a loaded JSON array. -/
def pyMemNat (w : Nat) (l : List JsonValue) : Bool :=
  l.any (pyEqNat w)

/-! ### `calculate_next_occurrence` -/

/-- The body of the weekday-selection loop of the weekly branch, with
`left` iterations remaining starting at offset `i`: compute
`next_date + timedelta(days = i)` (`none` = the `OverflowError` this raises
past 9999-12-31, which the surrounding `except` swallows) and return it as
soon as `(weekday + 1) % 7` is in the parsed list. -/
def findMatchingDayAux (base : DateTime) (target : List JsonValue) :
    Nat → Nat → Option DateTime
  | 0, _ => none
  | left + 1, i =>
    match addDaysDT base i with
    | none => none
    | some check =>
      if pyMemNat (sundayWeekday check.date) target then some check
      else findMatchingDayAux base target left (i + 1)

/-- The weekday-selection loop of the weekly branch: `for i in range(7)`,
return the first `next_date + i` whose Sunday-based weekday is in the
parsed list; `none` when no day in the window matches (or the window runs
past 9999-12-31). -/
def findMatchingDay (base : DateTime) (target : List JsonValue) : Option DateTime :=
  findMatchingDayAux base target 7 0

/-- The `days_of_week` handling of the weekly branch, after the
interval-weeks shift succeeded: parse the value and advance to the first
matching day; fall back to the plain shifted date when the field is falsy,
fails to parse, loads a non-array (the membership test then matches
nothing or raises a swallowed `TypeError`), finds no match in the 7-day
window, or overflows while scanning. -/
def weeklySelect (next_date : DateTime) (days_of_week : Option String) : DateTime :=
  match days_of_week with
  | some s =>
    if s ≠ "" then
      match jsonLoads s with
      | some (.arr target_days) =>
        match findMatchingDay next_date target_days with
        | some d => d
        | none => next_date
      | some _ => next_date
      | none => next_date
    else next_date
  | none => next_date

/-- `calculate_next_occurrence` from `services/recurring-service/main.py`.
`none` models an uncaught exception: the `OverflowError` of a `timedelta`
addition past 9999-12-31 (daily, the weekly shift before the `try`, and
the shared 1-day fallback), and the `ValueError` of the yearly
`except`-branch constructor, which runs outside any `try`. The monthly and
yearly branches construct `datetime(year, month, day, hour, minute)`,
zeroing the seconds. -/
def calculate_next_occurrence (current_date : DateTime) (frequency : String)
    (interval : Nat) (days_of_week : Option String := none)
    (day_of_month : Option Nat := none) (month_of_year : Option Nat := none) :
    Option DateTime :=
  if frequency = "daily" then
    addDaysDT current_date interval
  else if frequency = "weekly" then
    match addDaysDT current_date (7 * interval) with
    | none => none
    | some next_date => some (weeklySelect next_date days_of_week)
  else if frequency = "monthly" then
    let mc := monthCarry (current_date.date.month + interval) current_date.date.year
    let day := pick day_of_month current_date.date.day
    match clampLoop mc.2 mc.1 day with
    | some d =>
      some ⟨⟨mc.2, mc.1, d⟩, current_date.hour, current_date.minute, 0⟩
    | none => addDaysDT current_date 1
  else if frequency = "yearly" then
    let year := current_date.date.year + interval
    let month := pick month_of_year current_date.date.month
    let day := pick day_of_month current_date.date.day
    if dateValid year month day then
      some ⟨⟨year, month, day⟩, current_date.hour, current_date.minute, 0⟩
    else if dateValid year month 28 then
      some ⟨⟨year, month, 28⟩, current_date.hour, current_date.minute, 0⟩
    else none
  else
    addDaysDT current_date 1

/-! ### Characterizations of the loops -/

/-- When the optional field is known to be positive, Python truthiness
selection coincides with plain optional defaulting. -/
theorem pick_eq_getD (o : Option Nat) (dflt : Nat) (h : ∀ v, o = some v → 1 ≤ v) :
    pick o dflt = o.getD dflt := by
  cases o with
  | none => rfl
  | some v =>
    have hv := h v rfl
    simp [pick, Option.getD]
    omega

theorem monthCarryAux_eq (fuel m y : Nat) (hm : 1 ≤ m) (hf : m ≤ 12 * fuel + 12) :
    monthCarryAux fuel m y = ((m - 1) % 12 + 1, y + (m - 1) / 12) := by
  induction fuel generalizing m y with
  | zero =>
    simp only [monthCarryAux, Prod.mk.injEq]
    omega
  | succ fuel ih =>
    simp only [monthCarryAux]
    split
    · rw [ih (m - 12) (y + 1) (by omega) (by omega)]
      simp only [Prod.mk.injEq]
      omega
    · simp only [Prod.mk.injEq]
      omega

/-- The month-overflow loop normalizes the month into `1 … 12` and carries
whole years. -/
theorem monthCarry_eq (m y : Nat) (hm : 1 ≤ m) :
    monthCarry m y = ((m - 1) % 12 + 1, y + (m - 1) / 12) :=
  monthCarryAux_eq m m y hm (by omega)

/-- For a constructible year and month and a positive starting day, the
clamping loop returns the starting day capped at the length of the
month. -/
theorem clampLoop_eq (y m d0 : Nat) (hy : 1 ≤ y) (hy2 : y ≤ 9999) (hm1 : 1 ≤ m)
    (hm2 : m ≤ 12) (hd : 1 ≤ d0) :
    clampLoop y m d0 = some (min d0 (daysInMonth y m)) := by
  have hdim := daysInMonth_pos y m hm1 hm2
  induction d0 with
  | zero => omega
  | succ d ih =>
    by_cases hv : dateValid y m (d + 1) = true
    · have : d + 1 ≤ daysInMonth y m := by
        simp only [dateValid, dateWF, Bool.and_eq_true, decide_eq_true_eq] at hv
        omega
      simp only [clampLoop, hv, if_true]
      rw [Nat.min_eq_left this]
    · have hgt : daysInMonth y m < d + 1 := by
        simp only [dateValid, dateWF, Bool.and_eq_true, decide_eq_true_eq] at hv
        by_contra hle
        exact hv ⟨⟨⟨⟨⟨hy, hm1⟩, hm2⟩, by omega⟩, by omega⟩, hy2⟩
      have hd1 : 1 ≤ d := by omega
      have hlt : ¬d < 1 := by omega
      simp only [clampLoop, hv, if_false]
      rw [if_neg hlt, ih hd1, Nat.min_eq_right (by omega), Nat.min_eq_right (by omega)]
      simp

/-- Past year 9999 every constructor attempt inside the clamping loop
raises, so the loop always reaches its `break`. -/
theorem clampLoop_none_of_year_gt (y m : Nat) (hy : 9999 < y) (d0 : Nat) :
    clampLoop y m d0 = none := by
  have hval : ∀ d, dateValid y m d = false := by
    intro d
    simp only [dateValid, Bool.and_eq_false_iff]
    right
    simp only [decide_eq_false_iff_not]
    omega
  induction d0 with
  | zero => simp [clampLoop, hval 0]
  | succ d ih =>
    simp only [clampLoop, hval (d + 1), Bool.false_eq_true, if_false]
    split
    · rfl
    · exact ih

/-- The weekday-selection loop returns the first offset whose Sunday-based
weekday is in the target list, provided that offset's date is still in
range. -/
theorem findMatchingDayAux_first (base : DateTime) (target : List JsonValue)
    (left i j : Nat) (cj : DateTime) (hj : j < left)
    (hcj : addDaysDT base (i + j) = some cj)
    (hmem : pyMemNat (sundayWeekday cj.date) target = true)
    (hmin : ∀ k, k < j →
      pyMemNat (sundayWeekday (gregAddDays base.date (i + k))) target = false) :
    findMatchingDayAux base target left i = some cj := by
  induction left generalizing i j with
  | zero => omega
  | succ left ih =>
    have hbound := ((addDaysDT_eq_some_iff base (i + j) cj).mp hcj).1
    have hsome_i : addDaysDT base i
        = some ⟨gregAddDays base.date i, base.hour, base.minute, base.second⟩ := by
      rw [addDaysDT_eq_some_iff]
      exact ⟨Nat.le_trans (gregAddDays_year_mono base.date i (i + j) (by omega)) hbound,
        rfl⟩
    simp only [findMatchingDayAux, hsome_i]
    by_cases h0 : pyMemNat (sundayWeekday (gregAddDays base.date i)) target = true
    · have hj0 : j = 0 := by
        by_contra hne
        have hk := hmin 0 (by omega)
        rw [Nat.add_zero] at hk
        rw [hk] at h0
        cases h0
      subst hj0
      rw [if_pos h0]
      have hu := ((addDaysDT_eq_some_iff base (i + 0) cj).mp hcj).2
      rw [hu]
      simp
    · rw [if_neg h0]
      have hjne : j ≠ 0 := by
        intro hc
        subst hc
        have hu := ((addDaysDT_eq_some_iff base (i + 0) cj).mp hcj).2
        rw [hu] at hmem
        exact h0 (by simpa using hmem)
      have e1 : i + 1 + (j - 1) = i + j := by omega
      refine ih (i + 1) (j - 1) (by omega) (by rw [e1]; exact hcj) ?_
      intro k hk
      have e2 : i + 1 + k = i + (k + 1) := by omega
      rw [e2]
      exact hmin (k + 1) (by omega)

/-! ### Instance Materializer (`create_task_instance`)

`create_task_instance` only performs affine `timedelta` arithmetic on
`datetime`s (`due_date - utcnow()`, `next_occurrence + time_diff`), so the
timestamps it handles are represented by their timeline value `toSeconds`;
`timedelta` subtraction and shifting are exactly integer subtraction and
addition of these values. -/

/-- The JSON body `create_task_instance` POSTs to
`/api/internal/tasks` (timestamps as timeline values). -/
structure TaskPayload where
  title : String
  description : Option String
  priority : String
  due_date : Option Int
  tags : List String
  is_recurring : Bool
  parent_task_id : Nat
  recurrence_instance_date : Int
  deriving Repr, DecidableEq

/-- The `task_data` dict built by `create_task_instance`:
`new_due_date = next_occurrence + (due_date - utcnow())` when the parent
has a due date, else `None`; `is_recurring` is `False`, `parent_task_id`
is the parent's id, `recurrence_instance_date` is the computed occurrence.
`now` is the value of `datetime.utcnow()` at the subtraction. -/
def create_task_instance_payload (parent_task_id : Nat) (title : String)
    (description : Option String) (priority : String) (due_date : Option Int)
    (tags : List String) (next_occurrence : Int) (now : Int) : TaskPayload :=
  let new_due_date := due_date.map (fun d => next_occurrence + (d - now))
  { title := title
    description := description
    priority := priority
    due_date := new_due_date
    tags := tags
    is_recurring := false
    parent_task_id := parent_task_id
    recurrence_instance_date := next_occurrence }

/-- Outcome of the single `client.post` call in `create_task_instance`:
`some code` is an HTTP response with that status, `none` an exception
(store unavailable, timeout). `world k` is what the k-th POST the function
might issue would return. -/
def PostWorld := Nat → Option Nat

/-- Result of running `create_task_instance`: the returned boolean and how
many POST attempts were made. -/
structure CreateResult where
  success : Bool
  attempts : Nat
  deriving Repr, DecidableEq

/-- The insertion part of `create_task_instance`: one POST inside a
`try`; `True` on status 201, `False` on any other status, `False` on an
exception. No loop or retry surrounds the call. -/
def create_task_instance_run (world : PostWorld) : CreateResult :=
  match world 0 with
  | some status => { success := status == 201, attempts := 1 }
  | none => { success := false, attempts := 1 }

/-! ### The recurring-event handler (`handle_recurring_event`) -/

/-- The `recurring_pattern` dict of a `recurring.generate` event, fields as
read by the handler (`pattern.get(...)`; a missing `interval` defaults
to 1 at the read site). -/
structure RecurringPatternData where
  frequency : Option String
  interval : Option Nat
  days_of_week : Option String
  day_of_month : Option Nat
  month_of_year : Option Nat
  deriving Repr, DecidableEq

/-- The `task_data` dict of a `recurring.generate` event, fields as read by
the handler, with the ISO-8601 `due_date` string abstracted to the timeline
value it denotes. -/
structure TaskSnapshot where
  title : Option String
  description : Option String
  priority : Option String
  due_date : Option Int
  tags : Option (List String)
  deriving Repr, DecidableEq

/-- A `recurring.generate` event as consumed from the `recurring-events`
topic. -/
structure RecurringEventData where
  event_type : String
  parent_task_id : Nat
  user_id : String
  recurring_pattern : RecurringPatternData
  task_data : TaskSnapshot
  next_occurrence_date : String
  timestamp : String
  deriving Repr, DecidableEq

/-- The event dict built by `EventPublisher.publish_recurring_event`; note
that it carries a `next_occurrence_date` but no `task_data` key, so the
handler's `data.get("task_data", ...)` sees an empty dict. -/
def publish_recurring_event (parent_task_id : Nat) (user_id : String)
    (recurring_pattern : RecurringPatternData) (next_occurrence_date : String)
    (timestamp : String) : RecurringEventData :=
  { event_type := "recurring.generate"
    parent_task_id := parent_task_id
    user_id := user_id
    recurring_pattern := recurring_pattern
    task_data := ⟨none, none, none, none, none⟩
    next_occurrence_date := next_occurrence_date
    timestamp := timestamp }

/-- What the handler submitted to the task store. -/
structure Submission where
  payload : TaskPayload
  user_id : String
  deriving Repr, DecidableEq

/-- The handler's JSON response (`next_occurrence.isoformat()` abstracted
to the datetime itself). -/
structure HandlerResponse where
  status : String
  parent_task_id : Nat
  next_occurrence : Option DateTime
  submitted : Option Submission
  deriving Repr, DecidableEq

/-- `handle_recurring_event`: recompute the next occurrence from
`datetime.utcnow()` (`now`) and the pattern fields, build the instance
payload from the event's `task_data` (with the handler's defaults), POST it
once, and answer `processed` or `failed`; an uncaught exception while
computing (modelled by `calculate_next_occurrence = none`) is caught by the
outer `try` and answered as `error`. A missing `frequency` behaves as an
unrecognized frequency string. -/
def handle_recurring_event (event : RecurringEventData) (now : DateTime)
    (world : PostWorld) : HandlerResponse :=
  let pattern := event.recurring_pattern
  match calculate_next_occurrence now (pattern.frequency.getD "")
      (pattern.interval.getD 1) pattern.days_of_week pattern.day_of_month
      pattern.month_of_year with
  | none =>
    { status := "error", parent_task_id := event.parent_task_id
      next_occurrence := none, submitted := none }
  | some next =>
    let payload := create_task_instance_payload event.parent_task_id
      (event.task_data.title.getD "Recurring Task") event.task_data.description
      (event.task_data.priority.getD "medium") event.task_data.due_date
      (event.task_data.tags.getD []) (toSeconds next) (toSeconds now)
    let result := create_task_instance_run world
    { status := if result.success then "processed" else "failed"
      parent_task_id := event.parent_task_id
      next_occurrence := some next
      submitted := some ⟨payload, event.user_id⟩ }

/-! ### The completion-toggle endpoint (`toggle_task_completion`) -/

/-- The columns of a task row read by the toggle endpoint. -/
structure Task where
  id : Nat
  user_id : String
  title : String
  completed : Bool
  is_recurring : Bool
  deriving Repr, DecidableEq

/-- A `recurring_patterns` row. -/
structure PatternRow where
  task_id : Nat
  is_active : Bool
  frequency : String
  interval : Nat
  days_of_week : Option String
  day_of_month : Option Nat
  month_of_year : Option Nat
  deriving Repr, DecidableEq

/-- The endpoint's pattern lookup:
`select(RecurringPattern).where(task_id == id, is_active == True)`,
`scalar_one_or_none()` (at most one active row per task by the data
invariant). -/
def activePatternFor (patterns : List PatternRow) (taskId : Nat) : Option PatternRow :=
  patterns.find? (fun p => p.task_id == taskId && p.is_active)

/-- Observable outcome of the toggle endpoint: the task returned to the
caller, the lifecycle event published, and whether a `recurring.generate`
event was published. -/
structure ToggleOutcome where
  task : Task
  taskEventType : String
  recurringPublished : Bool
  deriving Repr, DecidableEq

/-- `toggle_task_completion` on a task owned by the caller: flip
`completed`, publish `task.completed` / `task.uncompleted`, and publish a
`recurring.generate` event only when the toggled task is completed, is
recurring, and an active pattern row exists; a missing pattern skips the
publish and still returns the toggled task. -/
def toggle_task_completion (task : Task) (patterns : List PatternRow) : ToggleOutcome :=
  let toggled := { task with completed := !task.completed }
  { task := toggled
    taskEventType := if toggled.completed then "task.completed" else "task.uncompleted"
    recurringPublished :=
      toggled.completed && toggled.is_recurring
        && (activePatternFor patterns task.id).isSome }

/-! ### The notification service (`handle_reminder_event`) -/

/-- `get_user_email` from the notification service — the source is a stub:
"TODO: Implement database query to get user email. For now, returns
None." -/
def get_user_email (_user_id : String) : Option String :=
  none

/-- `ConnectionManager.send_to_user`: each boolean is whether `send_json`
on one of the user's open WebSocket connections succeeds; the call returns
`True` iff the message reached at least one connection (no entry for the
user means no connections). -/
def send_to_user (connections : String → List Bool) (user_id : String) : Bool :=
  (connections user_id).any id

/-- A `reminder.due` event, fields as read by the handler
(`reminder_type` defaults to `"notification"` at the read site). -/
structure ReminderEventData where
  user_id : String
  task_title : String
  reminder_time : String
  reminder_type : String
  deriving Repr, DecidableEq

/-- Observable outcome of `handle_reminder_event`: the JSON answer plus the
recipients to which `send_email` was invoked. -/
structure ReminderOutcome where
  status : String
  websocket_sent : Bool
  emails_attempted : List String
  deriving Repr, DecidableEq

/-- `handle_reminder_event`: try live WebSocket delivery first; when no
live delivery succeeded and the reminder type is `"email"` or `"both"`,
look up the user's email and, only if one is found, send the reminder by
email. -/
def handle_reminder_event (connections : String → List Bool)
    (event : ReminderEventData) : ReminderOutcome :=
  let websocket_sent := send_to_user connections event.user_id
  let emails :=
    if !websocket_sent
        && (event.reminder_type == "email" || event.reminder_type == "both") then
      match get_user_email event.user_id with
      | some addr => [addr]
      | none => []
    else []
  { status := "processed", websocket_sent := websocket_sent, emails_attempted := emails }

/-! ### Branch equations of `calculate_next_occurrence` -/

theorem calcNext_daily (cur : DateTime) (iv : Nat) (dow : Option String)
    (dom moy : Option Nat) :
    calculate_next_occurrence cur "daily" iv dow dom moy = addDaysDT cur iv := rfl

theorem calcNext_weekly (cur : DateTime) (iv : Nat) (dow : Option String)
    (dom moy : Option Nat) :
    calculate_next_occurrence cur "weekly" iv dow dom moy =
      (match addDaysDT cur (7 * iv) with
       | none => none
       | some next_date => some (weeklySelect next_date dow)) := rfl

theorem calcNext_monthly (cur : DateTime) (iv : Nat) (dow : Option String)
    (dom moy : Option Nat) :
    calculate_next_occurrence cur "monthly" iv dow dom moy =
      (match clampLoop (monthCarry (cur.date.month + iv) cur.date.year).2
          (monthCarry (cur.date.month + iv) cur.date.year).1 (pick dom cur.date.day) with
       | some d =>
         some ⟨⟨(monthCarry (cur.date.month + iv) cur.date.year).2,
                (monthCarry (cur.date.month + iv) cur.date.year).1, d⟩,
               cur.hour, cur.minute, 0⟩
       | none => addDaysDT cur 1) := rfl

theorem calcNext_yearly (cur : DateTime) (iv : Nat) (dow : Option String)
    (dom moy : Option Nat) :
    calculate_next_occurrence cur "yearly" iv dow dom moy =
      (if dateValid (cur.date.year + iv) (pick moy cur.date.month) (pick dom cur.date.day) then
        some ⟨⟨cur.date.year + iv, pick moy cur.date.month, pick dom cur.date.day⟩,
              cur.hour, cur.minute, 0⟩
      else if dateValid (cur.date.year + iv) (pick moy cur.date.month) 28 then
        some ⟨⟨cur.date.year + iv, pick moy cur.date.month, 28⟩,
              cur.hour, cur.minute, 0⟩
      else none) := rfl

/-- A string `json.loads` accepts is not empty. -/
theorem jsonLoads_some_ne_empty {s : String} {v : JsonValue}
    (h : jsonLoads s = some v) : s ≠ "" := by
  intro hs
  subst hs
  rw [show jsonLoads "" = none from rfl] at h
  cases h

/-- A parse failure (or the falsy empty string) sends `weeklySelect` to the
plain shifted date. -/
theorem weeklySelect_parse_fail (nd : DateTime) (s : String)
    (hp : jsonLoads s = none) : weeklySelect nd (some s) = nd := by
  by_cases hs : s = "" <;> simp [weeklySelect, hs, hp]

/-- Loading a non-array sends `weeklySelect` to the plain shifted date. -/
theorem weeklySelect_not_arr (nd : DateTime) (s : String) (v : JsonValue)
    (hp : jsonLoads s = some v) (hna : ∀ l, v ≠ JsonValue.arr l) :
    weeklySelect nd (some s) = nd := by
  have hs := jsonLoads_some_ne_empty hp
  cases v with
  | arr l => exact absurd rfl (hna l)
  | jnull => simp [weeklySelect, hs, hp]
  | jbool b => simp [weeklySelect, hs, hp]
  | jint n => simp [weeklySelect, hs, hp]
  | jnum q => simp [weeklySelect, hs, hp]
  | jnan => simp [weeklySelect, hs, hp]
  | jinf b => simp [weeklySelect, hs, hp]
  | jstr t => simp [weeklySelect, hs, hp]
  | jobj ms => simp [weeklySelect, hs, hp]

/-- Loading an array sends `weeklySelect` to the scan's first match when
there is one. -/
theorem weeklySelect_found (nd : DateTime) (s : String) (l : List JsonValue)
    (d : DateTime) (hp : jsonLoads s = some (JsonValue.arr l))
    (hf : findMatchingDay nd l = some d) : weeklySelect nd (some s) = d := by
  have hs := jsonLoads_some_ne_empty hp
  simp [weeklySelect, hs, hp, hf]

/-- The picked month of the yearly branch stays in range, so for a target
year within `datetime`'s bound its day-28 fallback date is always
constructible. -/
theorem yearly_fallback_valid (cur : DateTime) (hv : cur.Valid) (iv : Nat)
    (moy : Option Nat) (hmoy : ∀ v, moy = some v → 1 ≤ v ∧ v ≤ 12)
    (h9999 : cur.date.year + iv ≤ 9999) :
    dateValid (cur.date.year + iv) (pick moy cur.date.month) 28 = true := by
  obtain ⟨hd, -, -, -⟩ := hv
  simp only [Date.Valid, dateValid, dateWF, Bool.and_eq_true, decide_eq_true_eq] at hd
  obtain ⟨⟨⟨⟨⟨hy, hm1⟩, hm2⟩, -⟩, -⟩, -⟩ := hd
  have hm : 1 ≤ pick moy cur.date.month ∧ pick moy cur.date.month ≤ 12 := by
    cases moy with
    | none => exact ⟨hm1, hm2⟩
    | some v =>
      have := hmoy v rfl
      simp only [pick]
      split <;> omega
  have := daysInMonth_pos (cur.date.year + iv) (pick moy cur.date.month) hm.1 hm.2
  simp only [dateValid, dateWF, Bool.and_eq_true, decide_eq_true_eq]
  exact ⟨⟨⟨⟨⟨by omega, hm.1⟩, hm.2⟩, by omega⟩, by omega⟩, h9999⟩

/-- When the carried target year stays within `datetime`'s bound, the
monthly branch lands on the carried month with the clamped day. -/
theorem monthly_in_range_eq (cur : DateTime) (hv : cur.Valid) (interval : Nat)
    (dow : Option String) (dom moy : Option Nat)
    (hdom : ∀ v, dom = some v → 1 ≤ v)
    (h9999 : cur.date.year + (cur.date.month - 1 + interval) / 12 ≤ 9999) :
    calculate_next_occurrence cur "monthly" interval dow dom moy
      = some ⟨⟨cur.date.year + (cur.date.month - 1 + interval) / 12,
              (cur.date.month - 1 + interval) % 12 + 1,
              min (pick dom cur.date.day)
                (daysInMonth (cur.date.year + (cur.date.month - 1 + interval) / 12)
                  ((cur.date.month - 1 + interval) % 12 + 1))⟩,
             cur.hour, cur.minute, 0⟩ := by
  obtain ⟨hd, -, -, -⟩ := hv
  simp only [Date.Valid, dateValid, dateWF, Bool.and_eq_true, decide_eq_true_eq] at hd
  obtain ⟨⟨⟨⟨⟨hy, hm1⟩, hm2⟩, hd1⟩, -⟩, -⟩ := hd
  have hcarry := monthCarry_eq (cur.date.month + interval) cur.date.year (by omega)
  have e : cur.date.month + interval - 1 = cur.date.month - 1 + interval := by omega
  rw [e] at hcarry
  have hday : 1 ≤ pick dom cur.date.day := by
    cases dom with
    | none => exact hd1
    | some v =>
      have := hdom v rfl
      simp only [pick]
      split <;> omega
  have hclamp := clampLoop_eq (cur.date.year + (cur.date.month - 1 + interval) / 12)
    ((cur.date.month - 1 + interval) % 12 + 1) (pick dom cur.date.day)
    (by omega) h9999 (by omega) (by omega) hday
  rw [calcNext_monthly, hcarry]
  simp only
  rw [hclamp]

/-! ### Claims -/

/-- C1, counterexample: for reference 2024-01-15 10:30, frequency
`yearly`, `interval = 1`, `month_of_year = 4`, `day_of_month = 31`, the
target date April 31, 2025 is invalid, yet the result is April 28, 2025
— not February 28 of the target year as the claim states. -/
theorem C1_yearly_feb28_counterexample :
    dateValid 2025 4 31 = false
    ∧ calculate_next_occurrence ⟨⟨2024, 1, 15⟩, 10, 30, 0⟩ "yearly" 1 none (some 31) (some 4)
        = some ⟨⟨2025, 4, 28⟩, 10, 30, 0⟩
    ∧ (⟨⟨2025, 4, 28⟩, 10, 30, 0⟩ : DateTime) ≠ ⟨⟨2025, 2, 28⟩, 10, 30, 0⟩ := by
  refine ⟨by decide, by decide, by decide⟩

/-- C1 (amended): the yearly rule adds `interval` years and uses
`month_of_year` / `day_of_month` when given (else the reference month and
day). While the target year stays within `datetime`'s range (≤ 9999), an
invalid resulting date falls back to day 28 of the **target month** of the
target year — in particular for `month_of_year = 2`, `day_of_month = 29`
and a non-leap target year the result is February 28 of that year; past
year 9999 the fallback constructor itself raises an uncaught
`ValueError`. -/
theorem C1_yearly_amended (cur : DateTime) (hv : cur.Valid) (interval : Nat)
    (dow : Option String) (dom moy : Option Nat)
    (hmoy : ∀ v, moy = some v → 1 ≤ v ∧ v ≤ 12)
    (hdom : ∀ v, dom = some v → 1 ≤ v ∧ v ≤ 31) :
    (cur.date.year + interval ≤ 9999 →
      calculate_next_occurrence cur "yearly" interval dow dom moy
        = some (if dateValid (cur.date.year + interval) (pick moy cur.date.month)
                (pick dom cur.date.day) then
            ⟨⟨cur.date.year + interval, pick moy cur.date.month, pick dom cur.date.day⟩,
             cur.hour, cur.minute, 0⟩
          else
            ⟨⟨cur.date.year + interval, pick moy cur.date.month, 28⟩,
             cur.hour, cur.minute, 0⟩))
    ∧ (cur.date.year + interval ≤ 9999 → moy = some 2 → dom = some 29 →
       isLeap (cur.date.year + interval) = false →
       calculate_next_occurrence cur "yearly" interval dow dom moy
         = some ⟨⟨cur.date.year + interval, 2, 28⟩, cur.hour, cur.minute, 0⟩)
    ∧ (9999 < cur.date.year + interval →
       calculate_next_occurrence cur "yearly" interval dow dom moy = none) := by
  have main : cur.date.year + interval ≤ 9999 →
      calculate_next_occurrence cur "yearly" interval dow dom moy
        = some (if dateValid (cur.date.year + interval) (pick moy cur.date.month)
                (pick dom cur.date.day) then
            ⟨⟨cur.date.year + interval, pick moy cur.date.month, pick dom cur.date.day⟩,
             cur.hour, cur.minute, 0⟩
          else
            ⟨⟨cur.date.year + interval, pick moy cur.date.month, 28⟩,
             cur.hour, cur.minute, 0⟩) := by
    intro h9999
    rw [calcNext_yearly]
    by_cases hval : dateValid (cur.date.year + interval) (pick moy cur.date.month)
        (pick dom cur.date.day) = true
    · rw [if_pos hval, if_pos hval]
    · rw [if_neg hval, if_neg hval,
        if_pos (yearly_fallback_valid cur hv interval moy hmoy h9999)]
  refine ⟨main, ?_, ?_⟩
  · intro h9999 hm2 hd29 hnl
    subst hm2
    subst hd29
    rw [main h9999]
    have h2 : pick (some 2) cur.date.month = 2 := rfl
    have h29 : pick (some 29) cur.date.day = 29 := rfl
    rw [h2, h29]
    have hinv : dateValid (cur.date.year + interval) 2 29 = false := by
      simp [dateValid, dateWF, daysInMonth, hnl]
    rw [hinv]
    simp
  · intro h9999
    have hf : ∀ m d, dateValid (cur.date.year + interval) m d = false := by
      intro m d
      simp only [dateValid, Bool.and_eq_false_iff]
      right
      simp only [decide_eq_false_iff_not]
      omega
    rw [calcNext_yearly, hf, hf]
    simp

/-- C1 witness: reference 2023-06-10 08:00, `interval = 2`,
`month_of_year = 2`, `day_of_month = 29`; the target year 2025 is not a
leap year, so the result is 2025-02-28 08:00. -/
theorem C1_yearly_amended_witness :
    calculate_next_occurrence ⟨⟨2023, 6, 10⟩, 8, 0, 0⟩ "yearly" 2 none (some 29) (some 2)
      = some ⟨⟨2025, 2, 28⟩, 8, 0, 0⟩ :=
  (C1_yearly_amended ⟨⟨2023, 6, 10⟩, 8, 0, 0⟩ (by decide) 2 none (some 29) (some 2)
    (fun v h => by cases h; exact ⟨by decide, by decide⟩)
    (fun v h => by cases h; exact ⟨by decide, by decide⟩)).2.1
    (by decide) rfl rfl (by decide)

/-- C2, counterexample: from reference 9998-01-15 10:00 with
`interval = 36` the claimed landing month is January of the carried year
10001, but year 10001 is out of range for `datetime`, every constructor
attempt in the clamp loop fails, the loop breaks, and the code returns
reference + 1 day = 9998-01-16 10:00. -/
theorem C2_monthly_overflow_counterexample :
    (⟨⟨9998, 1, 15⟩, 10, 0, 0⟩ : DateTime).Valid
    ∧ 9998 + (1 - 1 + 36) / 12 = 10001
    ∧ (1 - 1 + 36) % 12 + 1 = 1
    ∧ calculate_next_occurrence ⟨⟨9998, 1, 15⟩, 10, 0, 0⟩ "monthly" 36 none none none
        = some ⟨⟨9998, 1, 16⟩, 10, 0, 0⟩
    ∧ (⟨⟨9998, 1, 16⟩, 10, 0, 0⟩ : DateTime) ≠ ⟨⟨10001, 1, 15⟩, 10, 0, 0⟩ := by
  refine ⟨by decide, by decide, by decide, by decide, by decide⟩

/-- C2 (amended): while the carried target year
`y + (m - 1 + interval) / 12` stays ≤ 9999, the monthly rule lands in
month `((m - 1 + interval) % 12) + 1` of that year, with the day equal to
`day_of_month` (else the reference day) clamped down to the last valid day
of the target month, and the reference hour and minute preserved; when the
carried target year exceeds 9999 the clamp loop exhausts and the code
returns reference + 1 day. -/
theorem C2_monthly_carry_and_clamp (cur : DateTime) (hv : cur.Valid) (interval : Nat)
    (_hi : 1 ≤ interval) (dow : Option String) (dom moy : Option Nat)
    (hdom : ∀ v, dom = some v → 1 ≤ v ∧ v ≤ 31) :
    (cur.date.year + (cur.date.month - 1 + interval) / 12 ≤ 9999 →
      calculate_next_occurrence cur "monthly" interval dow dom moy
        = some ⟨⟨cur.date.year + (cur.date.month - 1 + interval) / 12,
                (cur.date.month - 1 + interval) % 12 + 1,
                min (dom.getD cur.date.day)
                  (daysInMonth (cur.date.year + (cur.date.month - 1 + interval) / 12)
                    ((cur.date.month - 1 + interval) % 12 + 1))⟩,
               cur.hour, cur.minute, 0⟩)
    ∧ (9999 < cur.date.year + (cur.date.month - 1 + interval) / 12 →
      calculate_next_occurrence cur "monthly" interval dow dom moy
        = addDaysDT cur 1) := by
  constructor
  · intro h9999
    rw [monthly_in_range_eq cur hv interval dow dom moy (fun v h => (hdom v h).1) h9999,
      pick_eq_getD dom cur.date.day (fun v h => (hdom v h).1)]
  · intro hover
    obtain ⟨hd, -, -, -⟩ := hv
    simp only [Date.Valid, dateValid, dateWF, Bool.and_eq_true, decide_eq_true_eq] at hd
    obtain ⟨⟨⟨⟨⟨hy, hm1⟩, hm2⟩, -⟩, -⟩, -⟩ := hd
    have hcarry := monthCarry_eq (cur.date.month + interval) cur.date.year (by omega)
    have e : cur.date.month + interval - 1 = cur.date.month - 1 + interval := by omega
    rw [e] at hcarry
    rw [calcNext_monthly, hcarry]
    simp only
    rw [clampLoop_none_of_year_gt _ _ hover]

/-- C2 witness: reference 2023-01-31 10:30, `interval = 1`, no
`day_of_month`: the target February 2023 has 28 days, so the result is
2023-02-28 10:30. -/
theorem C2_monthly_carry_and_clamp_witness :
    calculate_next_occurrence ⟨⟨2023, 1, 31⟩, 10, 30, 0⟩ "monthly" 1 none none none
      = some ⟨⟨2023, 2, 28⟩, 10, 30, 0⟩ :=
  (((C2_monthly_carry_and_clamp ⟨⟨2023, 1, 31⟩, 10, 30, 0⟩ (by decide) 1 (by decide)
    none none none (fun v h => by cases h)).1) (by decide)).trans (by decide)

/-- C3, counterexample: 9999-12-29 09:00 is a valid Wednesday reference
and `"[1,5]"` parses as the weekday set Monday/Friday, but
`current_date + timedelta(weeks = 1)` passes `datetime.max` and raises
`OverflowError` before the `try` block — the result is not the nearest
Monday or Friday (nor any date). -/
theorem C3_weekly_overflow_counterexample :
    pythonWeekday ⟨9999, 12, 29⟩ = 2
    ∧ (⟨⟨9999, 12, 29⟩, 9, 0, 0⟩ : DateTime).Valid
    ∧ calculate_next_occurrence ⟨⟨9999, 12, 29⟩, 9, 0, 0⟩ "weekly" 1 (some "[1,5]") none none
        = none := by
  refine ⟨by decide, by decide, by decide⟩

set_option maxHeartbeats 1600000 in
/-- C3 (amended): for frequency `weekly` with a `days_of_week` value that
`json.loads` reads as an array of integers (weekday indices), the result
is the reference plus `interval` weeks advanced to the first of the
following 7 days (offsets 0–6) whose 0-=-Sunday weekday is in the list,
provided those dates stay within `datetime`'s range; in particular for
`days_of_week = "[1,5]"`, `interval = 1` and a Wednesday reference with
the following days in range, the result is the Friday two days after the
shifted Wednesday (weekday 5, the nearest of Monday and Friday) and never
the Wednesday itself. -/
theorem C3_weekly_nearest_matching_day :
    (∀ (cur : DateTime) (interval : Nat) (dom moy : Option Nat) (s : String)
       (l : List JsonValue) (base cj : DateTime) (j : Nat),
       (∀ v ∈ l, ∃ n : Int, v = JsonValue.jint n) →
       jsonLoads s = some (JsonValue.arr l) →
       addDaysDT cur (7 * interval) = some base →
       j < 7 →
       addDaysDT base j = some cj →
       pyMemNat (sundayWeekday cj.date) l = true →
       (∀ k, k < j → pyMemNat (sundayWeekday (gregAddDays base.date k)) l = false) →
       calculate_next_occurrence cur "weekly" interval (some s) dom moy = some cj)
    ∧ (∀ (cur : DateTime), cur.Valid → pythonWeekday cur.date = 2 →
       (gregAddDays cur.date 9).year ≤ 9999 →
       ∀ (dom moy : Option Nat),
       calculate_next_occurrence cur "weekly" 1 (some "[1,5]") dom moy
         = some ⟨gregAddDays cur.date 9, cur.hour, cur.minute, cur.second⟩
       ∧ sundayWeekday (gregAddDays cur.date 9) = 5
       ∧ sundayWeekday (gregAddDays cur.date 9) ≠ sundayWeekday cur.date) := by
  have main : ∀ (cur : DateTime) (interval : Nat) (dom moy : Option Nat) (s : String)
      (l : List JsonValue) (base cj : DateTime) (j : Nat),
      (∀ v ∈ l, ∃ n : Int, v = JsonValue.jint n) →
      jsonLoads s = some (JsonValue.arr l) →
      addDaysDT cur (7 * interval) = some base →
      j < 7 →
      addDaysDT base j = some cj →
      pyMemNat (sundayWeekday cj.date) l = true →
      (∀ k, k < j → pyMemNat (sundayWeekday (gregAddDays base.date k)) l = false) →
      calculate_next_occurrence cur "weekly" interval (some s) dom moy = some cj := by
    intro cur interval dom moy s l base cj j _hint hp hbase hj hcj hmem hmin
    have hfind : findMatchingDay base l = some cj := by
      refine findMatchingDayAux_first base l 7 0 j cj hj ?_ hmem ?_
      · simpa using hcj
      · intro k hk
        simpa using hmin k hk
    rw [calcNext_weekly, hbase]
    show some (weeklySelect base (some s)) = some cj
    rw [weeklySelect_found base s l cj hp hfind]
  refine ⟨main, ?_⟩
  intro cur hv hwed h9 dom moy
  have hwf := hv.1.wf
  have hw : ∀ n, pythonWeekday (gregAddDays cur.date n) = (2 + n) % 7 := fun n => by
    rw [pythonWeekday_gregAddDays _ _ hwf, hwed]
  have hw9 : sundayWeekday (gregAddDays cur.date 9) = 5 := by
    simp [sundayWeekday, hw 9]
  have hb71 : (gregAddDays cur.date (7 * 1)).year ≤ 9999 :=
    Nat.le_trans (gregAddDays_year_mono cur.date (7 * 1) 9 (by norm_num)) h9
  have hbase : addDaysDT cur (7 * 1)
      = some ⟨gregAddDays cur.date (7 * 1), cur.hour, cur.minute, cur.second⟩ :=
    (addDaysDT_eq_some_iff cur (7 * 1) _).mpr ⟨hb71, rfl⟩
  have hadd2 : gregAddDays (gregAddDays cur.date (7 * 1)) 2 = gregAddDays cur.date 9 := by
    rw [gregAddDays_add]
  have hcj : addDaysDT
      (⟨gregAddDays cur.date (7 * 1), cur.hour, cur.minute, cur.second⟩ : DateTime) 2
      = some ⟨gregAddDays cur.date 9, cur.hour, cur.minute, cur.second⟩ := by
    rw [addDaysDT_eq_some_iff, DateTime_mk_date, DateTime_mk_hour, DateTime_mk_minute,
      DateTime_mk_second, hadd2]
    exact ⟨h9, rfl⟩
  have happ := main cur 1 dom moy "[1,5]" [.jint 1, .jint 5]
    ⟨gregAddDays cur.date (7 * 1), cur.hour, cur.minute, cur.second⟩
    ⟨gregAddDays cur.date 9, cur.hour, cur.minute, cur.second⟩ 2
    (by
      intro v hvm
      simp only [List.mem_cons, List.not_mem_nil, or_false] at hvm
      rcases hvm with rfl | rfl
      · exact ⟨1, rfl⟩
      · exact ⟨5, rfl⟩)
    rfl hbase (by decide) hcj
    (by
      rw [DateTime_mk_date, hw9]
      decide)
    (by
      intro k hk
      rw [DateTime_mk_date]
      interval_cases k
      · rw [gregAddDays_zero, show (7 : Nat) * 1 = 7 from rfl]
        have h7 : sundayWeekday (gregAddDays cur.date 7) = 3 := by
          simp [sundayWeekday, hw 7]
        rw [h7]
        decide
      · rw [gregAddDays_add, show (7 : Nat) * 1 + 1 = 8 from rfl]
        have h8 : sundayWeekday (gregAddDays cur.date 8) = 4 := by
          simp [sundayWeekday, hw 8]
        rw [h8]
        decide)
  refine ⟨?_, hw9, ?_⟩
  · rw [happ]
  · rw [hw9]
    simp only [sundayWeekday, hwed]
    decide

/-- C3 witness: 2024-01-03 09:00 is a Wednesday; with
`days_of_week = "[1,5]"` and `interval = 1` the next occurrence is Friday
2024-01-12 09:00. -/
theorem C3_weekly_nearest_matching_day_witness :
    calculate_next_occurrence ⟨⟨2024, 1, 3⟩, 9, 0, 0⟩ "weekly" 1 (some "[1,5]") none none
      = some ⟨⟨2024, 1, 12⟩, 9, 0, 0⟩ :=
  ((C3_weekly_nearest_matching_day.2 ⟨⟨2024, 1, 3⟩, 9, 0, 0⟩ (by decide) (by decide)
    (by decide) none none).1).trans (by decide)

/-- C6, counterexample: 9999-12-31 is a valid reference and `daily` with
`interval = 1` is a valid recognized input, yet
`current_date + timedelta(days = 1)` passes `datetime.max` and raises
`OverflowError` — the function does not return a datetime. -/
theorem C6_daily_overflow_counterexample :
    (⟨⟨9999, 12, 31⟩, 0, 0, 0⟩ : DateTime).Valid
    ∧ calculate_next_occurrence ⟨⟨9999, 12, 31⟩, 0, 0, 0⟩ "daily" 1 none none none
        = none := by
  refine ⟨by decide, by decide⟩

/-- C6 (amended): for every recognized frequency and in-range input,
`calculate_next_occurrence` terminates and returns a datetime whenever the
computed dates stay within `datetime`'s year range: for `daily` / `weekly`
when the interval shift stays ≤ year 9999, for `monthly` when the carried
target year is ≤ 9999 or the 1-day fallback stays in range, and for
`yearly` when the target year is ≤ 9999. The monthly clamping loop always
terminates (bounded recursion on the day); past the year range the
`timedelta` additions raise `OverflowError` and the yearly fallback
constructor raises an uncaught `ValueError`. -/
theorem C6_total_on_recognized_input (cur : DateTime) (hv : cur.Valid)
    (interval : Nat) (_hi : 1 ≤ interval) (dow : Option String) (dom moy : Option Nat)
    (hdom : ∀ v, dom = some v → 1 ≤ v ∧ v ≤ 31)
    (hmoy : ∀ v, moy = some v → 1 ≤ v ∧ v ≤ 12) :
    ((gregAddDays cur.date interval).year ≤ 9999 →
      (calculate_next_occurrence cur "daily" interval dow dom moy).isSome = true)
    ∧ ((gregAddDays cur.date (7 * interval)).year ≤ 9999 →
      (calculate_next_occurrence cur "weekly" interval dow dom moy).isSome = true)
    ∧ ((cur.date.year + (cur.date.month - 1 + interval) / 12 ≤ 9999 ∨
        (gregAddDays cur.date 1).year ≤ 9999) →
      (calculate_next_occurrence cur "monthly" interval dow dom moy).isSome = true)
    ∧ (cur.date.year + interval ≤ 9999 →
      (calculate_next_occurrence cur "yearly" interval dow dom moy).isSome = true) := by
  refine ⟨?_, ?_, ?_, ?_⟩
  · intro h
    rw [calcNext_daily]
    exact (addDaysDT_isSome_iff cur interval).mpr h
  · intro h
    rw [calcNext_weekly]
    have hb : addDaysDT cur (7 * interval)
        = some ⟨gregAddDays cur.date (7 * interval), cur.hour, cur.minute, cur.second⟩ :=
      (addDaysDT_eq_some_iff cur (7 * interval) _).mpr ⟨h, rfl⟩
    rw [hb]
    rfl
  · intro h
    rcases h with hin | hfb
    · rw [monthly_in_range_eq cur hv interval dow dom moy (fun v h => (hdom v h).1) hin]
      rfl
    · rw [calcNext_monthly]
      cases hc : clampLoop (monthCarry (cur.date.month + interval) cur.date.year).2
          (monthCarry (cur.date.month + interval) cur.date.year).1
          (pick dom cur.date.day) with
      | some d => simp [hc]
      | none =>
        simp only [hc]
        exact (addDaysDT_isSome_iff cur 1).mpr hfb
  · intro h
    rw [calcNext_yearly]
    by_cases hval : dateValid (cur.date.year + interval) (pick moy cur.date.month)
        (pick dom cur.date.day) = true
    · rw [if_pos hval]
      rfl
    · rw [if_neg hval, if_pos (yearly_fallback_valid cur hv interval moy hmoy h)]
      rfl

/-- C6 witness: the monthly rule at 2024-01-31 10:30 with `interval = 1`
returns a datetime. -/
theorem C6_total_on_recognized_input_witness :
    (calculate_next_occurrence ⟨⟨2024, 1, 31⟩, 10, 30, 0⟩ "monthly" 1 none none none).isSome
      = true :=
  (C6_total_on_recognized_input ⟨⟨2024, 1, 31⟩, 10, 30, 0⟩ (by decide) 1 (by decide)
    none none none (fun v h => by cases h) (fun v h => by cases h)).2.2.1
    (Or.inl (by decide))

/-- C7, counterexample: from the valid reference 9999-12-31 with a
malformed `days_of_week`, the claim promises the plain interval-weeks date
with no error, but `current_date + timedelta(weeks = 1)` is computed before
the `try` block and raises `OverflowError` — no plain date is returned. -/
theorem C7_weekly_overflow_counterexample :
    jsonLoads "oops" = none
    ∧ (⟨⟨9999, 12, 31⟩, 0, 0, 0⟩ : DateTime).Valid
    ∧ calculate_next_occurrence ⟨⟨9999, 12, 31⟩, 0, 0, 0⟩ "weekly" 1 (some "oops") none none
        = none := by
  refine ⟨rfl, by decide, by decide⟩

/-- C7 (amended): for frequency `weekly`, provided the interval-weeks shift
itself stays within `datetime`'s range, a `days_of_week` value on which
`json.loads` fails is swallowed and the plain shifted date is returned
with no error — likewise when it loads a non-array, on which the weekday
membership test matches nothing or raises a swallowed `TypeError`. When
the shift overflows, the `OverflowError` is raised before the `try` and
is not swallowed. -/
theorem C7_weekly_parse_failure_fallback :
    (∀ (cur : DateTime) (interval : Nat) (dom moy : Option Nat) (s : String)
       (base : DateTime), jsonLoads s = none →
       addDaysDT cur (7 * interval) = some base →
       calculate_next_occurrence cur "weekly" interval (some s) dom moy = some base)
    ∧ (∀ (cur : DateTime) (interval : Nat) (dom moy : Option Nat) (s : String)
       (v : JsonValue) (base : DateTime), jsonLoads s = some v →
       (∀ l, v ≠ JsonValue.arr l) →
       addDaysDT cur (7 * interval) = some base →
       calculate_next_occurrence cur "weekly" interval (some s) dom moy = some base) := by
  constructor
  · intro cur interval dom moy s base hp hbase
    rw [calcNext_weekly, hbase]
    show some (weeklySelect base (some s)) = some base
    rw [weeklySelect_parse_fail base s hp]
  · intro cur interval dom moy s v base hp hna hbase
    rw [calcNext_weekly, hbase]
    show some (weeklySelect base (some s)) = some base
    rw [weeklySelect_not_arr base s v hp hna]

/-- C7 witness: `days_of_week = "not json"` with a one-week interval moves
2024-01-03 09:00 to exactly 2024-01-10 09:00. -/
theorem C7_weekly_parse_failure_fallback_witness :
    jsonLoads "not json" = none
    ∧ calculate_next_occurrence ⟨⟨2024, 1, 3⟩, 9, 0, 0⟩ "weekly" 1 (some "not json") none none
        = some ⟨⟨2024, 1, 10⟩, 9, 0, 0⟩ :=
  ⟨rfl,
   C7_weekly_parse_failure_fallback.1 ⟨⟨2024, 1, 3⟩, 9, 0, 0⟩ 1 none none "not json"
     ⟨⟨2024, 1, 10⟩, 9, 0, 0⟩ rfl (by decide)⟩

/-- C4: the payload submitted by the Instance Materializer has
`is_recurring = false`, `parent_task_id` = the parent's id and
`recurrence_instance_date` = the computed occurrence; when the parent has a
due date the new due date is the occurrence plus the offset between the
original due date and the completion time; for a daily interval-1 rule the
child's due date lands exactly 86400 seconds (one day) after the
parent's. -/
theorem C4_instance_payload :
    (∀ (parent_task_id : Nat) (title : String) (description : Option String)
       (priority : String) (due_date : Option Int) (tags : List String)
       (next_occurrence now : Int),
      (create_task_instance_payload parent_task_id title description priority
        due_date tags next_occurrence now).is_recurring = false
      ∧ (create_task_instance_payload parent_task_id title description priority
        due_date tags next_occurrence now).parent_task_id = parent_task_id
      ∧ (create_task_instance_payload parent_task_id title description priority
        due_date tags next_occurrence now).recurrence_instance_date = next_occurrence
      ∧ (∀ d, due_date = some d →
        (create_task_instance_payload parent_task_id title description priority
          due_date tags next_occurrence now).due_date = some (next_occurrence + (d - now)))
      ∧ (due_date = none →
        (create_task_instance_payload parent_task_id title description priority
          due_date tags next_occurrence now).due_date = none))
    ∧ (∀ (cur : DateTime), cur.Valid →
       ∀ (next : DateTime),
        calculate_next_occurrence cur "daily" 1 none none none = some next →
       ∀ (parent_task_id : Nat) (title : String) (description : Option String)
         (priority : String) (d : Int) (tags : List String),
        (create_task_instance_payload parent_task_id title description priority
          (some d) tags (toSeconds next) (toSeconds cur)).due_date
          = some (d + 86400)) := by
  constructor
  · intro ptid title desc prio due tags next now
    refine ⟨rfl, rfl, rfl, ?_, ?_⟩
    · rintro d rfl
      rfl
    · rintro rfl
      rfl
  · intro cur hv next hnext ptid title desc prio d tags
    rw [calcNext_daily] at hnext
    have hts := toSeconds_addDaysDT cur next 1 hv.1.wf hnext
    simp [create_task_instance_payload, hts]
    omega

/-- C4 witness: parent completed at 2024-01-15 10:00 with due timestamp
`d = 5000` on the timeline; the daily interval-1 occurrence is
2024-01-16 10:00 and the child's due timestamp is `d + 86400`. -/
theorem C4_instance_payload_witness :
    (create_task_instance_payload 7 "Water plants" none "high" (some 5000) []
      (toSeconds ⟨⟨2024, 1, 16⟩, 10, 0, 0⟩) (toSeconds ⟨⟨2024, 1, 15⟩, 10, 0, 0⟩)).due_date
      = some (5000 + 86400) :=
  C4_instance_payload.2 ⟨⟨2024, 1, 15⟩, 10, 0, 0⟩ (by decide)
    ⟨⟨2024, 1, 16⟩, 10, 0, 0⟩ (by decide) 7 "Water plants" none "high" 5000 []

/-- C5: the toggle endpoint publishes a `recurring.generate` event iff the
toggled task is completed, is recurring, and has an active pattern row; a
non-recurring task never triggers generation, and a recurring task with no
active rule still gets its toggled row returned (silent no-op, no error
channel on this path). -/
theorem C5_recurring_publish_iff (task : Task) (patterns : List PatternRow) :
    ((toggle_task_completion task patterns).recurringPublished = true ↔
      (!task.completed) = true ∧ task.is_recurring = true ∧
        (activePatternFor patterns task.id).isSome = true)
    ∧ (task.is_recurring = false →
        (toggle_task_completion task patterns).recurringPublished = false)
    ∧ (toggle_task_completion task patterns).task
        = { task with completed := !task.completed } := by
  refine ⟨?_, ?_, rfl⟩
  · simp [toggle_task_completion, and_assoc]
  · intro h
    simp [toggle_task_completion, h]

/-- C5 witness: completing the non-recurring task 1 publishes no
`recurring.generate`, and completing the recurring task 2 whose only
pattern row is inactive is a silent no-op that still returns the toggled
row. -/
theorem C5_recurring_publish_iff_witness :
    (toggle_task_completion ⟨1, "u1", "Buy milk", false, false⟩ []).recurringPublished = false
    ∧ (toggle_task_completion ⟨2, "u1", "Report", false, true⟩
        [⟨2, false, "daily", 1, none, none, none⟩]).recurringPublished = false
    ∧ (toggle_task_completion ⟨2, "u1", "Report", false, true⟩
        [⟨2, false, "daily", 1, none, none, none⟩]).task
        = ⟨2, "u1", "Report", true, true⟩ :=
  ⟨(C5_recurring_publish_iff ⟨1, "u1", "Buy milk", false, false⟩ []).2.1 rfl,
   by
    have h := (C5_recurring_publish_iff ⟨2, "u1", "Report", false, true⟩
      [⟨2, false, "daily", 1, none, none, none⟩]).1
    rw [← Bool.not_eq_true]
    intro hc
    exact absurd ((h.mp hc).2.2) (by decide),
   ((C5_recurring_publish_iff ⟨2, "u1", "Report", false, true⟩
      [⟨2, false, "daily", 1, none, none, none⟩]).2.2).trans (by decide)⟩

/-- C8: the Instance Materializer makes exactly one POST per event; on a
non-201 response or an exception it returns `False` without retrying, and
the recurring-event handler then answers status `failed` (dropping the
event: the response is returned, nothing is re-enqueued). -/
theorem C8_single_attempt_no_retry :
    (∀ world : PostWorld, (create_task_instance_run world).attempts = 1)
    ∧ (∀ world : PostWorld, world 0 ≠ some 201 →
        (create_task_instance_run world).success = false)
    ∧ (∀ (event : RecurringEventData) (now : DateTime) (world : PostWorld),
        world 0 ≠ some 201 →
        (calculate_next_occurrence now (event.recurring_pattern.frequency.getD "")
          (event.recurring_pattern.interval.getD 1) event.recurring_pattern.days_of_week
          event.recurring_pattern.day_of_month
          event.recurring_pattern.month_of_year).isSome = true →
        (handle_recurring_event event now world).status = "failed") := by
  have hfail : ∀ world : PostWorld, world 0 ≠ some 201 →
      (create_task_instance_run world).success = false := by
    intro world hw
    cases h : world 0 with
    | none => simp [create_task_instance_run, h]
    | some status =>
      have hne : status ≠ 201 := by
        rintro rfl
        exact hw h
      simp [create_task_instance_run, h, hne]
  have hone : ∀ world : PostWorld, (create_task_instance_run world).attempts = 1 := by
    intro world
    cases h : world 0 <;> simp [create_task_instance_run, h]
  refine ⟨hone, hfail, ?_⟩
  intro event now world hw hs
  cases hc : calculate_next_occurrence now (event.recurring_pattern.frequency.getD "")
      (event.recurring_pattern.interval.getD 1) event.recurring_pattern.days_of_week
      event.recurring_pattern.day_of_month event.recurring_pattern.month_of_year with
  | none => rw [hc] at hs; cases hs
  | some next =>
    simp [handle_recurring_event, hc, hfail world hw]

/-- C8 witness: a store that answers 500 to the first POST: one attempt,
`False` returned, and the handler reports `failed` for a concrete daily
event. -/
theorem C8_single_attempt_no_retry_witness :
    (create_task_instance_run (fun _ => some 500)).attempts = 1
    ∧ (create_task_instance_run (fun _ => some 500)).success = false
    ∧ (handle_recurring_event
        ⟨"recurring.generate", 7, "u1", ⟨some "daily", some 1, none, none, none⟩,
         ⟨none, none, none, none, none⟩, "2024-01-15T10:00:00", "2024-01-15T10:00:00"⟩
        ⟨⟨2024, 1, 15⟩, 10, 0, 0⟩ (fun _ => some 500)).status = "failed" :=
  ⟨C8_single_attempt_no_retry.1 (fun _ => some 500),
   C8_single_attempt_no_retry.2.1 (fun _ => some 500) (by decide),
   C8_single_attempt_no_retry.2.2
     ⟨"recurring.generate", 7, "u1", ⟨some "daily", some 1, none, none, none⟩,
      ⟨none, none, none, none, none⟩, "2024-01-15T10:00:00", "2024-01-15T10:00:00"⟩
     ⟨⟨2024, 1, 15⟩, 10, 0, 0⟩ (fun _ => some 500) (by decide) (by decide)⟩

/-- C9 (code evidence): `get_user_email` is a stub returning `None`, so the
email fallback branch never hands a message to `send_email` — here on a
`reminder.due` event of type `email` for a user with no open WebSocket
connection, where the claim (and the spec's sink contract) expects an email
to be sent; in fact no run of the handler ever attempts an email. -/
theorem C9_email_fallback_never_sends :
    (handle_reminder_event (fun _ => []) ⟨"user-1", "Pay rent", "2026-10-12T09:00:00", "email"⟩
      = ⟨"processed", false, []⟩)
    ∧ (∀ (connections : String → List Bool) (event : ReminderEventData),
        (handle_reminder_event connections event).emails_attempted = []) := by
  refine ⟨rfl, ?_⟩
  intro connections event
  simp only [handle_reminder_event, get_user_email]
  split <;> rfl

/-- C10: the handler recomputes the next occurrence from the
processing-time clock and the pattern fields, so two `recurring.generate`
events differing only in `next_occurrence_date` produce identical
responses and submissions — even though the publisher always stamps the
field into the event it builds. -/
theorem C10_next_occurrence_date_has_no_influence :
    (∀ (event : RecurringEventData) (nod : String) (now : DateTime) (world : PostWorld),
      handle_recurring_event { event with next_occurrence_date := nod } now world
        = handle_recurring_event event now world)
    ∧ (∀ (parent_task_id : Nat) (user_id : String) (pattern : RecurringPatternData)
        (nod ts : String),
      (publish_recurring_event parent_task_id user_id pattern nod ts).next_occurrence_date
        = nod) := by
  exact ⟨fun _ _ _ _ => rfl, fun _ _ _ _ _ => rfl⟩

end TodoSpec


